import Mathlib

/-!
# Verification of the Jarvis voice pipeline subsystem

A shallow embedding, in Lean 4, of the voice subsystem of the Jarvis
repository (`backend/services/voice/`):

* `vad_service.py` — the voice-activity-detection hysteresis state machine
  (`VADService._update_state`, `VADService.process_audio`);
* `tts_service.py` — sentence-splitting and streaming synthesis
  (`TTSService._split_sentences`, `TTSService.stream_synthesis`,
  `TTSService._synthesize_openai`);
* `stt_service.py` — the transcription wrapper (`STTService.transcribe_audio`);
* `voice_pipeline.py` — the orchestrator (`VoicePipeline.process_audio_input`,
  `VoicePipeline.synthesize_response`, `VoicePipeline._handle_interruption`,
  `VoicePipeline.cancel_playback`, `VoicePipeline.reset`).

Numeric conventions: Python floats that are only ever compared (speech
probabilities, thresholds) are modelled as rationals `ℚ`; millisecond
durations and frame counters are `Nat` (they are Python ints, and `//` is
`Nat` floor division); audio byte strings are `List Nat`; Python strings
are `List Char` where character-level scanning matters.

Provider calls that perform I/O (the VAD probability estimator, the STT
HTTP call, the TTS synthesis call) are modelled as oracle function
parameters; a fallible provider is an `Except`/`Option`-valued oracle, and
the `try/except` wrappers of the source are embedded as the corresponding
`match` on the oracle's result.
-/

namespace Jarvis

/-! ## VAD service (`vad_service.py`) -/

/-- `SpeechState` enum of `vad_service.py`. -/
inductive SpeechState
  | SILENCE
  | SPEECH_START
  | SPEECH
  | SPEECH_END
deriving DecidableEq

/-- The mutable state of `VADService`: `_current_state`, `_speech_frames`,
`_silence_frames` (the float `_speech_start_time` is never read and is
omitted). -/
structure VState where
  current : SpeechState
  speechFrames : Nat
  silenceFrames : Nat
deriving DecidableEq

/-- `VADConfig` of `voice_config.py` (the fields the state machine and the
pipeline read). Defaults are the dataclass defaults. -/
structure VADConfig where
  threshold : ℚ := mkRat 1 2
  minSpeechDurationMs : Nat := 250
  minSilenceDurationMs : Nat := 500
  chunkSizeMs : Nat := 30
deriving DecidableEq

/-- `VADService.reset` / the freshly-constructed service state. -/
def vadInit : VState := ⟨SpeechState.SILENCE, 0, 0⟩

/-- `VADService._update_state` (vad_service.py lines 141-173), the hysteresis
state machine.  Returns the updated service state and the returned
`SpeechState`.  Mirrors the Python control flow exactly:

* speech frame: `speech_frames += 1; silence_frames = 0`; from `SILENCE`
  a transition to `SPEECH_START` happens once `speech_frames` reaches
  `min_speech_duration_ms // chunk_size_ms`; from `SPEECH_START` the state
  moves to `SPEECH`; otherwise the current state is left unchanged and the
  final `return SPEECH if ... != SILENCE else SILENCE` applies (so from
  `SPEECH_END` a speech frame returns `SPEECH` with `_current_state` still
  `SPEECH_END`);
* silence frame: `silence_frames += 1`; from `SPEECH_START`/`SPEECH` a
  transition to `SPEECH_END` happens once `silence_frames` reaches
  `min_silence_duration_ms // chunk_size_ms` (zeroing `speech_frames`),
  otherwise `SPEECH` is returned with the state unchanged; from
  `SILENCE`/`SPEECH_END` the state becomes `SILENCE` and `speech_frames`
  is zeroed. -/
def updateState (cfg : VADConfig) (s : VState) (isSpeech : Bool) :
    VState × SpeechState :=
  let minSpeechFrames := cfg.minSpeechDurationMs / cfg.chunkSizeMs
  let minSilenceFrames := cfg.minSilenceDurationMs / cfg.chunkSizeMs
  if isSpeech then
    let sf := s.speechFrames + 1
    match s.current with
    | SpeechState.SILENCE =>
      if minSpeechFrames ≤ sf then
        (⟨SpeechState.SPEECH_START, sf, 0⟩, SpeechState.SPEECH_START)
      else
        (⟨SpeechState.SILENCE, sf, 0⟩, SpeechState.SILENCE)
    | SpeechState.SPEECH_START => (⟨SpeechState.SPEECH, sf, 0⟩, SpeechState.SPEECH)
    | SpeechState.SPEECH => (⟨SpeechState.SPEECH, sf, 0⟩, SpeechState.SPEECH)
    | SpeechState.SPEECH_END => (⟨SpeechState.SPEECH_END, sf, 0⟩, SpeechState.SPEECH)
  else
    let sil := s.silenceFrames + 1
    match s.current with
    | SpeechState.SPEECH_START =>
      if minSilenceFrames ≤ sil then
        (⟨SpeechState.SPEECH_END, 0, sil⟩, SpeechState.SPEECH_END)
      else
        (⟨SpeechState.SPEECH_START, s.speechFrames, sil⟩, SpeechState.SPEECH)
    | SpeechState.SPEECH =>
      if minSilenceFrames ≤ sil then
        (⟨SpeechState.SPEECH_END, 0, sil⟩, SpeechState.SPEECH_END)
      else
        (⟨SpeechState.SPEECH, s.speechFrames, sil⟩, SpeechState.SPEECH)
    | SpeechState.SILENCE => (⟨SpeechState.SILENCE, 0, sil⟩, SpeechState.SILENCE)
    | SpeechState.SPEECH_END => (⟨SpeechState.SILENCE, 0, sil⟩, SpeechState.SILENCE)

/-- `VADResult` dataclass of `vad_service.py`. -/
structure VADResult where
  isSpeech : Bool
  probability : ℚ
  state : SpeechState
  durationMs : Nat
deriving DecidableEq

/-- `VADService.process_audio` (vad_service.py lines 102-139).  The
provider-dependent probability estimate (`_detect_silero` /
`_detect_energy`, pure numeric code on the audio bytes) is abstracted as
the `probability` argument.  `is_speech` is `probability >= threshold`;
the duration reported on `SPEECH_END` is computed from the *post-update*
`_speech_frames` counter, exactly as in the source. -/
def vadProcess (cfg : VADConfig) (s : VState) (probability : ℚ) :
    VState × VADResult :=
  let isSpeech := decide (cfg.threshold ≤ probability)
  let r := updateState cfg s isSpeech
  let durationMs :=
    if r.2 = SpeechState.SPEECH_END then r.1.speechFrames * cfg.chunkSizeMs else 0
  (r.1, ⟨isSpeech, probability, r.2, durationMs⟩)

/-- Iterate `updateState` over a list of frame classifications, collecting
the returned states. -/
def runVAD (cfg : VADConfig) (s : VState) : List Bool → VState × List SpeechState
  | [] => (s, [])
  | b :: bs =>
    let r := updateState cfg s b
    let rest := runVAD cfg r.1 bs
    (rest.1, r.2 :: rest.2)

/-- Iterate `VADService.process_audio` over a sequence of frames, each
abstracted by its probability estimate, collecting the returned
`VADResult`s. -/
def runVADProb (cfg : VADConfig) (s : VState) : List ℚ → VState × List VADResult
  | [] => (s, [])
  | p :: ps =>
    let r := vadProcess cfg s p
    let rest := runVADProb cfg r.1 ps
    (rest.1, r.2 :: rest.2)

/-! ## TTS service (`tts_service.py`) -/

/-- Python's `\s` whitespace class over the characters relevant here (the
class matched by the `re` split pattern and stripped by `str.strip()`). -/
def isWsChar (c : Char) : Bool :=
  decide (c = ' ' ∨ c = '\t' ∨ c = '\n' ∨ c = '\r' ∨ c = '\x0b' ∨ c = '\x0c')

/-- The sentence-boundary punctuation of the split pattern `(?<=[.!?])\s+`. -/
def isPunctChar (c : Char) : Bool :=
  decide (c = '.' ∨ c = '!' ∨ c = '?')

/-- Drop a leading whitespace run. -/
def dropWs : List Char → List Char
  | [] => []
  | c :: cs => if isWsChar c then dropWs cs else c :: cs

theorem dropWs_length_le (l : List Char) : (dropWs l).length ≤ l.length := by
  induction l with
  | nil => simp [dropWs]
  | cons c cs ih =>
    simp only [dropWs]
    split
    · exact Nat.le_succ_of_le ih
    · simp

/-- Python `str.strip()`: remove whitespace from both ends. -/
def pyStrip (l : List Char) : List Char :=
  (dropWs (dropWs l).reverse).reverse

/-- `re.split(r'(?<=[.!?])\s+', text)`: scan the text; a split point is a
whitespace character whose predecessor is boundary punctuation, and the
split consumes the whole (maximal) whitespace run.  The state is `some
cur` while accumulating the current segment (`cur` reversed), and `none`
while consuming the whitespace run that follows an emitted segment; a
trailing run leaves the empty final segment that `re.split` produces. -/
def splitAux : Option (List Char) → List Char → List (List Char)
  | st, [] => [(st.getD []).reverse]
  | none, c :: cs =>
    if isWsChar c then splitAux none cs else splitAux (some [c]) cs
  | some cur, c :: cs =>
    match cur with
    | [] => splitAux (some [c]) cs
    | p :: _ =>
      if isPunctChar p && isWsChar c then
        cur.reverse :: splitAux none cs
      else
        splitAux (some (c :: cur)) cs

/-- `TTSService._split_sentences` (tts_service.py lines 119-132): split on
the boundary pattern, strip each piece, keep the non-empty ones; if
nothing remains, fall back to `[text]`. -/
def splitSentences (text : List Char) : List (List Char) :=
  let result := ((splitAux (some []) text).map pyStrip).filter (fun s => s ≠ [])
  if result = [] then [text] else result

/-- Whether the text contains a split boundary (punctuation immediately
followed by whitespace).  Used only to phrase the specification's
segmentation rule. -/
def hasBoundary : List Char → Bool
  | [] => false
  | [_] => false
  | a :: b :: rest => (isPunctChar a && isWsChar b) || hasBoundary (b :: rest)

/-- The sentence segmentation exactly as the specification words it: split
on boundary punctuation (`.`, `!`, `?`) followed by whitespace, treating
the whole input as a single segment when no boundary is found, and discard
the segments that are empty (after trimming their whitespace).  Compared
against the implementation's behaviour in the refinement theorem for the
segmentation claim. -/
def specSegmentation (text : List Char) : List (List Char) :=
  let raw := if hasBoundary text then splitAux (some []) text else [text]
  (raw.map pyStrip).filter (fun s => s ≠ [])

/-- `TTSConfig` of `voice_config.py` (the fields `_synthesize_openai`
reads). -/
structure TTSConfig where
  outputFormat : String := "mp3"
  sampleRate : Nat := 24000
deriving DecidableEq

/-- `AudioChunk` dataclass of `tts_service.py`. -/
structure AudioChunk where
  data : List Nat
  format : String := "mp3"
  sampleRate : Nat := 24000
  isFinal : Bool := false
  textSegment : List Char := []
deriving DecidableEq

/-- `TTSService._synthesize_openai` (tts_service.py lines 134-166).  The
provider HTTP call is the oracle `provider`; `none` models any exception
escaping the call, and the `except` branch of the source returns an
`AudioChunk` with empty `data` (format `"mp3"`, default sample rate)
instead of propagating the exception.  (`TTSService.synthesize` dispatches
here for the default provider `"openai"`.) -/
def synthesizeOpenai (cfg : TTSConfig) (provider : List Char → Option (List Nat))
    (text : List Char) : AudioChunk :=
  match provider text with
  | some d =>
    { data := d, format := cfg.outputFormat, sampleRate := cfg.sampleRate,
      isFinal := false, textSegment := text }
  | none => { data := [], format := "mp3", sampleRate := 24000,
              isFinal := false, textSegment := text }

/-- The loop body of `TTSService.stream_synthesis` (tts_service.py lines
104-117): `i` is the enumeration index, `total` the length of the full
sentence list; a sentence that is blank after stripping is skipped,
otherwise it is synthesized and yielded with `is_final = (i == total - 1)`
and `text_segment` set to the sentence. -/
def streamSynthAux (cfg : TTSConfig) (provider : List Char → Option (List Nat))
    (total : Nat) : Nat → List (List Char) → List AudioChunk
  | _, [] => []
  | i, s :: rest =>
    if pyStrip s = [] then
      streamSynthAux cfg provider total (i + 1) rest
    else
      { synthesizeOpenai cfg provider s with
          isFinal := decide (i = total - 1), textSegment := s } ::
        streamSynthAux cfg provider total (i + 1) rest

/-- `TTSService.stream_synthesis` (tts_service.py lines 87-117): split the
text into sentences and yield one chunk per non-blank sentence. -/
def streamSynthesis (cfg : TTSConfig) (provider : List Char → Option (List Nat))
    (text : List Char) : List AudioChunk :=
  let sentences := splitSentences text
  streamSynthAux cfg provider sentences.length 0 sentences

/-! ## STT service (`stt_service.py`) -/

/-- `TranscriptResult` dataclass of `stt_service.py` (the unused
`start_time`/`end_time`/`words` fields, always left at their defaults by
`transcribe_audio`, are omitted). -/
structure TranscriptResult where
  text : String
  isFinal : Bool
  confidence : ℚ
deriving DecidableEq

/-- `STTService.transcribe_audio` (stt_service.py lines 59-86) together
with the provider bodies it dispatches to (`_transcribe_deepgram` lines
108-165 for the default provider; the whisper variants behave the same
way at this level).  The provider call is the oracle: `.ok (text, conf)`
is a successful response, `.error` any exception raised by the call.
Every provider body wraps its work in `try/except` and resolves an
exception to `TranscriptResult(text="", is_final=True, confidence=0.0)`
instead of raising, which is the `.error` branch here. -/
def transcribeAudio (provider : List Nat → Except String (String × ℚ))
    (audio : List Nat) : TranscriptResult :=
  match provider audio with
  | Except.ok (t, c) => ⟨t, true, c⟩
  | Except.error _ => ⟨"", true, 0⟩

/-! ## Voice pipeline (`voice_pipeline.py`) -/

/-- `PipelineState` enum of `voice_pipeline.py`. -/
inductive PipelineState
  | IDLE
  | LISTENING
  | PROCESSING
  | SPEAKING
  | INTERRUPTED
deriving DecidableEq

/-- `PipelineConfig` of `voice_config.py` (the fields the pipeline reads).
Defaults are the dataclass defaults; in particular
`interruption_threshold = 0.6`. -/
structure PipelineConfig where
  enableInterruption : Bool := true
  interruptionThreshold : ℚ := mkRat 3 5
  enableSentenceStreaming : Bool := true
deriving DecidableEq

/-- `VoiceConfig` of `voice_config.py` (the sub-configurations the pipeline
reads on the audio-input path). -/
structure VoiceConfig where
  vad : VADConfig := {}
  pipeline : PipelineConfig := {}
deriving DecidableEq

/-- The mutable per-session state of `VoicePipeline`: `_state`,
`_is_playing`, `_interrupted`, `_audio_buffer`, and the owned
`VADService` state. -/
structure PipeState where
  state : PipelineState
  isPlaying : Bool
  interrupted : Bool
  buffer : List Nat
  vad : VState
deriving DecidableEq

/-- The pipeline state after `VoicePipeline.__init__` / as forced by
`VoicePipeline.reset`. -/
def pipeInit : PipeState :=
  ⟨PipelineState.IDLE, false, false, [], vadInit⟩

/-- Events emitted through `VoicePipeline._emit_event`.  The constructors
are the `event_type` strings the pipeline passes (`vad`, `state_change`,
`transcript`, `audio`, `interruption`, `playback_cancelled`); `errorEv`
stands for an `error` event, which the event vocabulary of the
specification includes. -/
inductive PEvent
  | vadEv (r : VADResult)
  | stateChange (s : PipelineState)
  | transcriptEv (t : TranscriptResult)
  | audioEv (c : AudioChunk)
  | interruptionEv
  | playbackCancelledEv
  | errorEv
deriving DecidableEq

/-- `VoicePipeline.reset` (voice_pipeline.py lines 111-117). -/
def resetPipe (_s : PipeState) : PipeState := pipeInit

/-- `VoicePipeline._handle_interruption` (voice_pipeline.py lines
240-258): set `interrupted`, stop playback, pass through `INTERRUPTED`
(emitting `state_change` and `interruption`), then reset the VAD, clear
the buffer and settle on `LISTENING`.  Returns the resulting state and
the emitted events. -/
def handleInterruption (_s : PipeState) : PipeState × List PEvent :=
  (⟨PipelineState.LISTENING, false, true, [], vadInit⟩,
   [PEvent.stateChange PipelineState.INTERRUPTED, PEvent.interruptionEv])

/-- `VoicePipeline.process_audio_input` (voice_pipeline.py lines 119-173).
`probOf` abstracts the VAD probability estimator, `sttProvider` the STT
provider call (see `transcribeAudio`).  Returns the new pipeline state,
the emitted events in order, and the optional transcript.  Mirrors the
source: run the VAD; during playback, speech with probability `>= 0.7`
(a constant in the source, line 142) triggers `_handle_interruption` when
`enable_interruption` is set; `SPEECH_START` clears the buffer and enters
`LISTENING`; speech frames append to the buffer while `LISTENING`;
`SPEECH_END` enters `PROCESSING` and, if the buffer is non-empty,
transcribes it, clears it, and returns the transcript when its text is
non-empty. -/
def processAudioInput (cfg : VoiceConfig) (probOf : List Nat → ℚ)
    (sttProvider : List Nat → Except String (String × ℚ))
    (s : PipeState) (audio : List Nat) :
    PipeState × List PEvent × Option TranscriptResult :=
  let prob := probOf audio
  let v := vadProcess cfg.vad s.vad prob
  let vr := v.2
  let s1 : PipeState := { s with vad := v.1 }
  let evs := [PEvent.vadEv vr]
  if s1.isPlaying = true ∧ vr.isSpeech = true ∧
      cfg.pipeline.enableInterruption = true ∧ mkRat 7 10 ≤ prob then
    let hi := handleInterruption s1
    (hi.1, evs ++ hi.2, none)
  else
    let s2 := if vr.state = SpeechState.SPEECH_START then
        { s1 with state := PipelineState.LISTENING, buffer := [] } else s1
    let evs2 := if vr.state = SpeechState.SPEECH_START then
        evs ++ [PEvent.stateChange PipelineState.LISTENING] else evs
    let s3 := if vr.isSpeech = true ∧ s2.state = PipelineState.LISTENING then
        { s2 with buffer := s2.buffer ++ audio } else s2
    if vr.state = SpeechState.SPEECH_END then
      let s4 := { s3 with state := PipelineState.PROCESSING }
      let evs3 := evs2 ++ [PEvent.stateChange PipelineState.PROCESSING]
      if s4.buffer ≠ [] then
        let t := transcribeAudio sttProvider s4.buffer
        let s5 := { s4 with buffer := [] }
        if t.text ≠ "" then (s5, evs3 ++ [PEvent.transcriptEv t], some t)
        else (s5, evs3, none)
      else (s4, evs3, none)
    else (s3, evs2, none)

/-- One iteration of the `async for` loop of
`VoicePipeline.stream_audio_input` (voice_pipeline.py lines 190-199): if
the `interrupted` flag is set, clear it, reset the VAD and skip the
chunk; otherwise process it. -/
def streamAudioInputStep (cfg : VoiceConfig) (probOf : List Nat → ℚ)
    (sttProvider : List Nat → Except String (String × ℚ))
    (s : PipeState) (audio : List Nat) :
    PipeState × List PEvent × Option TranscriptResult :=
  if s.interrupted = true then
    ({ s with interrupted := false, vad := vadInit }, [], none)
  else
    processAudioInput cfg probOf sttProvider s audio

/-- The `finally` block of `VoicePipeline.synthesize_response`
(voice_pipeline.py lines 233-238): playback stops, and the state returns
to `IDLE` (with a `state_change` event) only when no interruption is
pending. -/
def synthFinalize (s : PipeState) : PipeState × List PEvent :=
  let s1 := { s with isPlaying := false }
  if s1.interrupted = true then (s1, [])
  else ({ s1 with state := PipelineState.IDLE },
        [PEvent.stateChange PipelineState.IDLE])

/-- `VoicePipeline.synthesize_response` (voice_pipeline.py lines 201-238)
run to completion in the pipeline's single execution context (no
concurrent mutation while the generator is drained, the specification's
single-writer session model): enter `SPEAKING`/playing, then for each TTS
chunk check the `interrupted` flag *before* emitting and yielding — so
with the flag set on entry the loop breaks before the first chunk, and
with the flag clear every chunk is emitted and yielded — and finally run
the cleanup (`synthFinalize`).  Returns the final state, the emitted
events and the yielded chunks. -/
def synthesizeResponse (tcfg : TTSConfig)
    (provider : List Char → Option (List Nat))
    (s : PipeState) (text : List Char) :
    PipeState × List PEvent × List AudioChunk :=
  let s1 := { s with state := PipelineState.SPEAKING, isPlaying := true }
  let evs := [PEvent.stateChange PipelineState.SPEAKING]
  let yielded := if s1.interrupted = true then []
    else streamSynthesis tcfg provider text
  let evs2 := evs ++ yielded.map PEvent.audioEv
  let fin := synthFinalize s1
  (fin.1, evs2 ++ fin.2, yielded)

/-- `VoicePipeline.cancel_playback` (voice_pipeline.py lines 260-264). -/
def cancelPlayback (s : PipeState) : PipeState × List PEvent :=
  if s.isPlaying = true then
    ({ s with interrupted := true }, [PEvent.playbackCancelledEv])
  else (s, [])

/-! ## Helper lemmas: the VAD state machine -/

theorem updateState_end_frame (cfg : VADConfig) (s : VState) (b : Bool)
    (h : (updateState cfg s b).2 = SpeechState.SPEECH_END) :
    b = false ∧
    (updateState cfg s b).1.current = SpeechState.SPEECH_END ∧
    (updateState cfg s b).1.speechFrames = 0 := by
  obtain ⟨cur, sf, sil⟩ := s
  cases b <;> cases cur <;>
    simp only [updateState] at h ⊢ <;>
    split_ifs at h ⊢ <;> simp_all

/-- From a service state whose `_current_state` is `SPEECH_END`, a speech
frame returns `SPEECH` (leaving the latch in place) and a silence frame
returns `SILENCE`. -/
theorem updateState_from_end (cfg : VADConfig) (t : VState) (b : Bool)
    (h : t.current = SpeechState.SPEECH_END) :
    (updateState cfg t b).2 =
      (if b then SpeechState.SPEECH else SpeechState.SILENCE) := by
  obtain ⟨cur, sf, sil⟩ := t
  simp only at h
  subst h
  cases b <;> simp [updateState]

/-! ## C9 -/

/-- C9: whenever `process_audio` reports `SPEECH_END`, the reported
`duration_ms` is `0`: `_update_state` zeroes `_speech_frames` on the
`SPEECH_END` transition before `process_audio` multiplies that counter by
the frame duration. -/
theorem c9_speech_end_duration_zero (cfg : VADConfig) (s : VState) (p : ℚ)
    (h : (vadProcess cfg s p).2.state = SpeechState.SPEECH_END) :
    (vadProcess cfg s p).2.durationMs = 0 := by
  unfold vadProcess at h ⊢
  simp only at h ⊢
  rw [if_pos h, (updateState_end_frame cfg s _ h).2.2, Nat.zero_mul]

theorem c9_witness :
    ((vadProcess { minSilenceDurationMs := 30, chunkSizeMs := 30 : VADConfig }
        ⟨SpeechState.SPEECH, 5, 0⟩ 0).2.state = SpeechState.SPEECH_END) ∧
    (vadProcess { minSilenceDurationMs := 30, chunkSizeMs := 30 : VADConfig }
        ⟨SpeechState.SPEECH, 5, 0⟩ 0).2.durationMs = 0 :=
  ⟨by decide, c9_speech_end_duration_zero _ _ _ (by decide)⟩

/-! ## C5 -/

/-- C5, refuted as stated: after a `SPEECH_END` frame, a frame classified
as speech makes `process_audio` return `SPEECH`, not `SILENCE` (with
thresholds of one frame, the run speech/silence/speech from reset returns
`SPEECH_START`, `SPEECH_END`, then `SPEECH`). -/
theorem c5_counterexample :
    ((runVADProb
        { minSpeechDurationMs := 30, minSilenceDurationMs := 30,
          chunkSizeMs := 30 : VADConfig }
        vadInit [1, 0, 1]).2.map VADResult.state =
      [SpeechState.SPEECH_START, SpeechState.SPEECH_END, SpeechState.SPEECH]) ∧
    SpeechState.SPEECH ≠ SpeechState.SILENCE := by decide

/-- C5, amended: whenever `process_audio` returns `SPEECH_END`, the next
processed frame returns `SILENCE` when that frame is classified as
silence and `SPEECH` when it is classified as speech; in either case the
next frame does not return `SPEECH_END` again. -/
theorem c5_after_end (cfg : VADConfig) (s : VState) (p q : ℚ)
    (h : (vadProcess cfg s p).2.state = SpeechState.SPEECH_END) :
    ((vadProcess cfg (vadProcess cfg s p).1 q).2.state =
      (if cfg.threshold ≤ q then SpeechState.SPEECH else SpeechState.SILENCE)) ∧
    (vadProcess cfg (vadProcess cfg s p).1 q).2.state ≠ SpeechState.SPEECH_END := by
  unfold vadProcess at h ⊢
  simp only at h ⊢
  have hcur := (updateState_end_frame cfg s _ h).2.1
  rw [updateState_from_end cfg _ _ hcur]
  constructor
  · by_cases hq : cfg.threshold ≤ q <;> simp [hq]
  · by_cases hq : cfg.threshold ≤ q <;> simp [hq]

/-! ## C4: helper lemmas for the full utterance run -/

theorem runVAD_append (cfg : VADConfig) (s : VState) (xs ys : List Bool) :
    runVAD cfg s (xs ++ ys) =
      ((runVAD cfg (runVAD cfg s xs).1 ys).1,
       (runVAD cfg s xs).2 ++ (runVAD cfg (runVAD cfg s xs).1 ys).2) := by
  induction xs generalizing s with
  | nil => simp [runVAD]
  | cons b bs ih => simp [runVAD, ih]

/-- Speech frames from `SILENCE` below the speech threshold only grow the
`speech_frames` counter and keep returning `SILENCE`. -/
theorem runVAD_silence_accum (cfg : VADConfig) (k c : Nat)
    (h : c + k < cfg.minSpeechDurationMs / cfg.chunkSizeMs) :
    runVAD cfg ⟨SpeechState.SILENCE, c, 0⟩ (List.replicate k true) =
      (⟨SpeechState.SILENCE, c + k, 0⟩, List.replicate k SpeechState.SILENCE) := by
  induction k generalizing c with
  | zero => simp [runVAD]
  | succ n ih =>
    have hstep : updateState cfg ⟨SpeechState.SILENCE, c, 0⟩ true =
        (⟨SpeechState.SILENCE, c + 1, 0⟩, SpeechState.SILENCE) := by
      have h1 : ¬ (cfg.minSpeechDurationMs / cfg.chunkSizeMs ≤ c + 1) := by omega
      simp [updateState, h1]
    rw [List.replicate_succ]
    simp only [runVAD, hstep]
    rw [ih (c + 1) (by omega)]
    have h2 : c + 1 + n = c + (n + 1) := by omega
    rw [h2, List.replicate_succ]

/-- The speech frame that reaches the threshold triggers `SPEECH_START`. -/
theorem updateState_silence_to_start (cfg : VADConfig) (c z : Nat)
    (h : cfg.minSpeechDurationMs / cfg.chunkSizeMs ≤ c + 1) :
    updateState cfg ⟨SpeechState.SILENCE, c, z⟩ true =
      (⟨SpeechState.SPEECH_START, c + 1, 0⟩, SpeechState.SPEECH_START) := by
  simp [updateState, h]

/-- Speech frames from `SPEECH` keep returning `SPEECH`. -/
theorem runVAD_speech_speech (cfg : VADConfig) (k a : Nat) :
    runVAD cfg ⟨SpeechState.SPEECH, a, 0⟩ (List.replicate k true) =
      (⟨SpeechState.SPEECH, a + k, 0⟩, List.replicate k SpeechState.SPEECH) := by
  induction k generalizing a with
  | zero => simp [runVAD]
  | succ n ih =>
    have hstep : updateState cfg ⟨SpeechState.SPEECH, a, 0⟩ true =
        (⟨SpeechState.SPEECH, a + 1, 0⟩, SpeechState.SPEECH) := by
      simp [updateState]
    rw [List.replicate_succ]
    simp only [runVAD, hstep]
    rw [ih (a + 1)]
    have h2 : a + 1 + n = a + (n + 1) := by omega
    rw [h2, List.replicate_succ]

/-- Speech frames from the `SPEECH_START` latch return `SPEECH`. -/
theorem runVAD_start_speech (cfg : VADConfig) (k a : Nat) :
    runVAD cfg ⟨SpeechState.SPEECH_START, a, 0⟩ (List.replicate k true) =
      ((if k = 0 then (⟨SpeechState.SPEECH_START, a, 0⟩ : VState)
        else ⟨SpeechState.SPEECH, a + k, 0⟩),
       List.replicate k SpeechState.SPEECH) := by
  cases k with
  | zero => simp [runVAD]
  | succ n =>
    have hstep : updateState cfg ⟨SpeechState.SPEECH_START, a, 0⟩ true =
        (⟨SpeechState.SPEECH, a + 1, 0⟩, SpeechState.SPEECH) := by
      simp [updateState]
    rw [List.replicate_succ]
    simp only [runVAD, hstep]
    rw [runVAD_speech_speech cfg n (a + 1)]
    have h2 : a + 1 + n = a + (n + 1) := by omega
    simp [h2, List.replicate_succ]

/-- Silence frames during speech below the silence threshold only grow the
`silence_frames` counter and keep returning `SPEECH`, leaving
`_current_state` untouched. -/
theorem runVAD_silence_wait (cfg : VADConfig) (k z a : Nat) (cur : SpeechState)
    (hcur : cur = SpeechState.SPEECH_START ∨ cur = SpeechState.SPEECH)
    (h : z + k < cfg.minSilenceDurationMs / cfg.chunkSizeMs) :
    runVAD cfg ⟨cur, a, z⟩ (List.replicate k false) =
      (⟨cur, a, z + k⟩, List.replicate k SpeechState.SPEECH) := by
  induction k generalizing z with
  | zero => simp [runVAD]
  | succ n ih =>
    have hstep : updateState cfg ⟨cur, a, z⟩ false =
        (⟨cur, a, z + 1⟩, SpeechState.SPEECH) := by
      have h1 : ¬ (cfg.minSilenceDurationMs / cfg.chunkSizeMs ≤ z + 1) := by omega
      rcases hcur with hc | hc <;> subst hc <;> simp [updateState, h1]
    rw [List.replicate_succ]
    simp only [runVAD, hstep]
    rw [ih (z + 1) (by omega)]
    have h2 : z + 1 + n = z + (n + 1) := by omega
    rw [h2, List.replicate_succ]

/-- The silence frame that reaches the threshold triggers `SPEECH_END` and
zeroes the speech counter. -/
theorem updateState_to_end (cfg : VADConfig) (z a : Nat) (cur : SpeechState)
    (hcur : cur = SpeechState.SPEECH_START ∨ cur = SpeechState.SPEECH)
    (h : cfg.minSilenceDurationMs / cfg.chunkSizeMs ≤ z + 1) :
    updateState cfg ⟨cur, a, z⟩ false =
      (⟨SpeechState.SPEECH_END, 0, z + 1⟩, SpeechState.SPEECH_END) := by
  rcases hcur with hc | hc <;> subst hc <;> simp [updateState, h]

/-- Silence frames from `SILENCE` keep returning `SILENCE`. -/
theorem runVAD_silence_silence (cfg : VADConfig) (k z : Nat) :
    runVAD cfg ⟨SpeechState.SILENCE, 0, z⟩ (List.replicate k false) =
      (⟨SpeechState.SILENCE, 0, z + k⟩, List.replicate k SpeechState.SILENCE) := by
  induction k generalizing z with
  | zero => simp [runVAD]
  | succ n ih =>
    have hstep : updateState cfg ⟨SpeechState.SILENCE, 0, z⟩ false =
        (⟨SpeechState.SILENCE, 0, z + 1⟩, SpeechState.SILENCE) := by
      simp [updateState]
    rw [List.replicate_succ]
    simp only [runVAD, hstep]
    rw [ih (z + 1)]
    have h2 : z + 1 + n = z + (n + 1) := by omega
    rw [h2, List.replicate_succ]

/-- Silence frames after the `SPEECH_END` latch return `SILENCE`. -/
theorem runVAD_after_end (cfg : VADConfig) (k sf z : Nat) :
    (runVAD cfg ⟨SpeechState.SPEECH_END, sf, z⟩ (List.replicate k false)).2 =
      List.replicate k SpeechState.SILENCE := by
  cases k with
  | zero => simp [runVAD]
  | succ n =>
    have hstep : updateState cfg ⟨SpeechState.SPEECH_END, sf, z⟩ false =
        (⟨SpeechState.SILENCE, 0, z + 1⟩, SpeechState.SILENCE) := by
      simp [updateState]
    rw [List.replicate_succ]
    simp only [runVAD, hstep]
    rw [runVAD_silence_silence cfg n (z + 1)]
    rw [List.replicate_succ]

/-- The speech phase of an utterance: from the reset state, `ns` speech
frames with `ns` at least the speech threshold produce the output run
`SILENCE^(t-1), SPEECH_START, SPEECH^(ns-t)` (where `t` is the threshold
frame index) and land in `SPEECH_START`/`SPEECH` with a zero silence
counter. -/
theorem runVAD_speech_phase (cfg : VADConfig) (ns : Nat) (hns : 1 ≤ ns)
    (hms : cfg.minSpeechDurationMs / cfg.chunkSizeMs ≤ ns) :
    ∃ cur k1 k2, (cur = SpeechState.SPEECH_START ∨ cur = SpeechState.SPEECH) ∧
      runVAD cfg vadInit (List.replicate ns true) =
        ((⟨cur, ns, 0⟩ : VState),
         List.replicate k1 SpeechState.SILENCE ++
           SpeechState.SPEECH_START :: List.replicate k2 SpeechState.SPEECH) := by
  by_cases h0 : cfg.minSpeechDurationMs / cfg.chunkSizeMs = 0
  · obtain ⟨m, rfl⟩ : ∃ m, ns = m + 1 := ⟨ns - 1, by omega⟩
    have hstep : updateState cfg ⟨SpeechState.SILENCE, 0, 0⟩ true =
        (⟨SpeechState.SPEECH_START, 1, 0⟩, SpeechState.SPEECH_START) :=
      updateState_silence_to_start cfg 0 0 (by omega)
    refine ⟨if m = 0 then SpeechState.SPEECH_START else SpeechState.SPEECH, 0, m,
      by split <;> simp, ?_⟩
    rw [List.replicate_succ]
    simp only [runVAD, vadInit, hstep]
    rw [runVAD_start_speech cfg m 1]
    by_cases hm : m = 0
    · simp [hm]
    · have h6 : 1 + m = m + 1 := by omega
      simp [hm, h6]
  · have hmS1 : 1 ≤ cfg.minSpeechDurationMs / cfg.chunkSizeMs :=
      Nat.pos_of_ne_zero h0
    have hdecomp : List.replicate ns true =
        List.replicate (cfg.minSpeechDurationMs / cfg.chunkSizeMs - 1) true ++
          true :: List.replicate (ns - cfg.minSpeechDurationMs / cfg.chunkSizeMs) true := by
      rw [← List.replicate_succ, ← List.replicate_add]
      congr 1
      omega
    have hLA : runVAD cfg vadInit
        (List.replicate (cfg.minSpeechDurationMs / cfg.chunkSizeMs - 1) true) =
        ((⟨SpeechState.SILENCE, cfg.minSpeechDurationMs / cfg.chunkSizeMs - 1, 0⟩ : VState),
         List.replicate (cfg.minSpeechDurationMs / cfg.chunkSizeMs - 1)
           SpeechState.SILENCE) := by
      have := runVAD_silence_accum cfg (cfg.minSpeechDurationMs / cfg.chunkSizeMs - 1) 0
        (by omega)
      simpa [vadInit] using this
    have h2 : cfg.minSpeechDurationMs / cfg.chunkSizeMs - 1 + 1 =
        cfg.minSpeechDurationMs / cfg.chunkSizeMs := by omega
    have hLB : updateState cfg
        ⟨SpeechState.SILENCE, cfg.minSpeechDurationMs / cfg.chunkSizeMs - 1, 0⟩ true =
        (⟨SpeechState.SPEECH_START, cfg.minSpeechDurationMs / cfg.chunkSizeMs, 0⟩,
         SpeechState.SPEECH_START) := by
      rw [updateState_silence_to_start cfg
        (cfg.minSpeechDurationMs / cfg.chunkSizeMs - 1) 0 (by omega), h2]
    refine ⟨if ns = cfg.minSpeechDurationMs / cfg.chunkSizeMs then SpeechState.SPEECH_START
        else SpeechState.SPEECH,
      cfg.minSpeechDurationMs / cfg.chunkSizeMs - 1,
      ns - cfg.minSpeechDurationMs / cfg.chunkSizeMs,
      by split <;> simp, ?_⟩
    rw [hdecomp, runVAD_append, hLA]
    simp only [runVAD, hLB]
    rw [runVAD_start_speech cfg (ns - cfg.minSpeechDurationMs / cfg.chunkSizeMs)
      (cfg.minSpeechDurationMs / cfg.chunkSizeMs)]
    by_cases h4 : ns = cfg.minSpeechDurationMs / cfg.chunkSizeMs
    · have h5 : ns - cfg.minSpeechDurationMs / cfg.chunkSizeMs = 0 := by omega
      simp [h4, h5]
    · have h5 : ¬ (ns - cfg.minSpeechDurationMs / cfg.chunkSizeMs = 0) := by omega
      have h6 : cfg.minSpeechDurationMs / cfg.chunkSizeMs +
          (ns - cfg.minSpeechDurationMs / cfg.chunkSizeMs) = ns := by omega
      simp [h4, h5, h6]

/-- The silence phase of an utterance: from a `SPEECH_START`/`SPEECH`
state with a zero silence counter, `nsil` silence frames with `nsil` at
least the silence threshold produce the output run
`SPEECH^(u-1), SPEECH_END, SILENCE^(nsil-u)`. -/
theorem runVAD_silence_phase (cfg : VADConfig) (nsil a : Nat) (cur : SpeechState)
    (hcur : cur = SpeechState.SPEECH_START ∨ cur = SpeechState.SPEECH)
    (hn : 1 ≤ nsil)
    (hms : cfg.minSilenceDurationMs / cfg.chunkSizeMs ≤ nsil) :
    ∃ k1 k2, (runVAD cfg ⟨cur, a, 0⟩ (List.replicate nsil false)).2 =
      List.replicate k1 SpeechState.SPEECH ++
        SpeechState.SPEECH_END :: List.replicate k2 SpeechState.SILENCE := by
  by_cases h0 : cfg.minSilenceDurationMs / cfg.chunkSizeMs = 0
  · obtain ⟨m, rfl⟩ : ∃ m, nsil = m + 1 := ⟨nsil - 1, by omega⟩
    have hstep : updateState cfg ⟨cur, a, 0⟩ false =
        (⟨SpeechState.SPEECH_END, 0, 1⟩, SpeechState.SPEECH_END) :=
      updateState_to_end cfg 0 a cur hcur (by omega)
    refine ⟨0, m, ?_⟩
    rw [List.replicate_succ]
    simp only [runVAD, hstep]
    rw [runVAD_after_end cfg m 0 1]
    simp
  · have hmSil1 : 1 ≤ cfg.minSilenceDurationMs / cfg.chunkSizeMs :=
      Nat.pos_of_ne_zero h0
    have hdecomp : List.replicate nsil false =
        List.replicate (cfg.minSilenceDurationMs / cfg.chunkSizeMs - 1) false ++
          false :: List.replicate (nsil - cfg.minSilenceDurationMs / cfg.chunkSizeMs)
            false := by
      rw [← List.replicate_succ, ← List.replicate_add]
      congr 1
      omega
    have hLD : runVAD cfg ⟨cur, a, 0⟩
        (List.replicate (cfg.minSilenceDurationMs / cfg.chunkSizeMs - 1) false) =
        ((⟨cur, a, cfg.minSilenceDurationMs / cfg.chunkSizeMs - 1⟩ : VState),
         List.replicate (cfg.minSilenceDurationMs / cfg.chunkSizeMs - 1)
           SpeechState.SPEECH) := by
      have := runVAD_silence_wait cfg (cfg.minSilenceDurationMs / cfg.chunkSizeMs - 1)
        0 a cur hcur (by omega)
      simpa using this
    have h2 : cfg.minSilenceDurationMs / cfg.chunkSizeMs - 1 + 1 =
        cfg.minSilenceDurationMs / cfg.chunkSizeMs := by omega
    have hLE : updateState cfg
        ⟨cur, a, cfg.minSilenceDurationMs / cfg.chunkSizeMs - 1⟩ false =
        (⟨SpeechState.SPEECH_END, 0, cfg.minSilenceDurationMs / cfg.chunkSizeMs⟩,
         SpeechState.SPEECH_END) := by
      rw [updateState_to_end cfg (cfg.minSilenceDurationMs / cfg.chunkSizeMs - 1)
        a cur hcur (by omega), h2]
    refine ⟨cfg.minSilenceDurationMs / cfg.chunkSizeMs - 1,
      nsil - cfg.minSilenceDurationMs / cfg.chunkSizeMs, ?_⟩
    rw [hdecomp, runVAD_append, hLD]
    simp only [runVAD, hLE]
    rw [runVAD_after_end cfg (nsil - cfg.minSilenceDurationMs / cfg.chunkSizeMs) 0
      (cfg.minSilenceDurationMs / cfg.chunkSizeMs)]

/-- The state component of `runVADProb` matches `runVAD` on the frame
classifications, and so does the sequence of reported states. -/
theorem runVADProb_states (cfg : VADConfig) (s : VState) (ps : List ℚ) :
    (runVADProb cfg s ps).1 =
      (runVAD cfg s (ps.map fun p => decide (cfg.threshold ≤ p))).1 ∧
    (runVADProb cfg s ps).2.map VADResult.state =
      (runVAD cfg s (ps.map fun p => decide (cfg.threshold ≤ p))).2 := by
  induction ps generalizing s with
  | nil => simp [runVADProb, runVAD]
  | cons p ps ih =>
    simp only [runVADProb, runVAD, List.map_cons, vadProcess]
    exact ⟨(ih _).1, by simp [(ih _).2]⟩

/-- C4: from the reset VAD state, a frame sequence of `ns` consecutive
speech-classified frames (probability at or above the threshold) of total
duration at least `min_speech_duration_ms`, followed immediately by
`nsil` consecutive silence-classified frames of total duration at least
`min_silence_duration_ms`, makes `process_audio` return `SPEECH_START` on
exactly one frame and `SPEECH_END` on exactly one frame (the frame-count
thresholds being the millisecond durations divided by the frame
duration). -/
theorem c4_one_start_one_end (cfg : VADConfig) (sp sil : List ℚ)
    (hchunk : 0 < cfg.chunkSizeMs)
    (hsp1 : 1 ≤ sp.length) (hsil1 : 1 ≤ sil.length)
    (hspeech : ∀ p ∈ sp, cfg.threshold ≤ p)
    (hsilence : ∀ p ∈ sil, p < cfg.threshold)
    (hdur1 : cfg.minSpeechDurationMs ≤ sp.length * cfg.chunkSizeMs)
    (hdur2 : cfg.minSilenceDurationMs ≤ sil.length * cfg.chunkSizeMs) :
    (((runVADProb cfg vadInit (sp ++ sil)).2.map VADResult.state).count
        SpeechState.SPEECH_START = 1) ∧
    (((runVADProb cfg vadInit (sp ++ sil)).2.map VADResult.state).count
        SpeechState.SPEECH_END = 1) := by
  have hms1 : cfg.minSpeechDurationMs / cfg.chunkSizeMs ≤ sp.length := by
    calc cfg.minSpeechDurationMs / cfg.chunkSizeMs
        ≤ sp.length * cfg.chunkSizeMs / cfg.chunkSizeMs := Nat.div_le_div_right hdur1
      _ = sp.length := Nat.mul_div_cancel _ hchunk
  have hms2 : cfg.minSilenceDurationMs / cfg.chunkSizeMs ≤ sil.length := by
    calc cfg.minSilenceDurationMs / cfg.chunkSizeMs
        ≤ sil.length * cfg.chunkSizeMs / cfg.chunkSizeMs := Nat.div_le_div_right hdur2
      _ = sil.length := Nat.mul_div_cancel _ hchunk
  have hmapsp : sp.map (fun p => decide (cfg.threshold ≤ p)) =
      List.replicate sp.length true := by
    rw [List.eq_replicate_iff]
    refine ⟨by simp, ?_⟩
    intro b hb
    rw [List.mem_map] at hb
    obtain ⟨p, hp, hpb⟩ := hb
    rw [← hpb]
    exact decide_eq_true (hspeech p hp)
  have hmapsil : sil.map (fun p => decide (cfg.threshold ≤ p)) =
      List.replicate sil.length false := by
    rw [List.eq_replicate_iff]
    refine ⟨by simp, ?_⟩
    intro b hb
    rw [List.mem_map] at hb
    obtain ⟨p, hp, hpb⟩ := hb
    rw [← hpb]
    exact decide_eq_false (not_le.mpr (hsilence p hp))
  have hrw := (runVADProb_states cfg vadInit (sp ++ sil)).2
  rw [List.map_append, hmapsp, hmapsil] at hrw
  rw [hrw, runVAD_append]
  obtain ⟨cur, k1, k2, hcur, hphase1⟩ := runVAD_speech_phase cfg sp.length hsp1 hms1
  rw [hphase1]
  obtain ⟨k3, k4, hphase2⟩ :=
    runVAD_silence_phase cfg sil.length sp.length cur hcur hsil1 hms2
  rw [hphase2]
  constructor <;>
    simp [List.count_append, List.count_replicate, List.count_cons]

theorem c4_witness :
    ((1:Nat) ≤ (List.replicate 9 (1:ℚ)).length) ∧
    (((runVADProb { : VADConfig } vadInit
        (List.replicate 9 (1:ℚ) ++ List.replicate 17 (0:ℚ))).2.map
          VADResult.state).count SpeechState.SPEECH_START = 1) ∧
    (((runVADProb { : VADConfig } vadInit
        (List.replicate 9 (1:ℚ) ++ List.replicate 17 (0:ℚ))).2.map
          VADResult.state).count SpeechState.SPEECH_END = 1) :=
  ⟨by decide,
   c4_one_start_one_end { : VADConfig } (List.replicate 9 1) (List.replicate 17 0)
     (by decide) (by decide) (by decide)
     (by intro p hp; rw [List.eq_of_mem_replicate hp]; decide)
     (by intro p hp; rw [List.eq_of_mem_replicate hp]; decide)
     (by decide) (by decide)⟩

/-! ## C8 -/

/-- C8: `cancel_playback` while not playing emits no event and leaves the
pipeline state (state, buffer, playing flag, VAD state, interrupted flag)
unchanged; while playing it sets `interrupted` and emits exactly a
`playback_cancelled` event, touching nothing else. -/
theorem c8_cancel_playback (s : PipeState) :
    (cancelPlayback s).1.state = s.state ∧
    (cancelPlayback s).1.buffer = s.buffer ∧
    (cancelPlayback s).1.isPlaying = s.isPlaying ∧
    (cancelPlayback s).1.vad = s.vad ∧
    (cancelPlayback s).1.interrupted =
      (if s.isPlaying = true then true else s.interrupted) ∧
    (cancelPlayback s).2 =
      (if s.isPlaying = true then [PEvent.playbackCancelledEv] else []) := by
  unfold cancelPlayback
  by_cases h : s.isPlaying = true <;> simp [h]

/-! ## C10 -/

/-- C10: calling `synthesize_response` while the `interrupted` flag is
still set yields zero chunks and leaves the pipeline in `SPEAKING` (no
transition back to `IDLE`, and no `idle` state-change event); moreover
the flag is never cleared by `process_audio_input` or by
`synthesize_response` itself, only `reset` and the next
`stream_audio_input` iteration clear it, and an interruption or
`cancel_playback` (while playing) set it. -/
theorem c10_interrupted_synthesis (tcfg : TTSConfig)
    (provider : List Char → Option (List Nat)) (s : PipeState) (text : List Char)
    (hint : s.interrupted = true) :
    ((synthesizeResponse tcfg provider s text).2.2 = [] ∧
     (synthesizeResponse tcfg provider s text).1.state = PipelineState.SPEAKING ∧
     (synthesizeResponse tcfg provider s text).1.state ≠ PipelineState.IDLE ∧
     (synthesizeResponse tcfg provider s text).1.interrupted = true ∧
     PEvent.stateChange PipelineState.IDLE ∉
       (synthesizeResponse tcfg provider s text).2.1) ∧
    (∀ (cfg : VoiceConfig) (probOf : List Nat → ℚ)
        (stt : List Nat → Except String (String × ℚ))
        (s' : PipeState) (audio : List Nat),
      s'.interrupted = true →
      (processAudioInput cfg probOf stt s' audio).1.interrupted = true) ∧
    (∀ s' : PipeState,
      (synthesizeResponse tcfg provider s' text).1.interrupted = s'.interrupted) ∧
    (∀ s' : PipeState, (resetPipe s').interrupted = false) ∧
    (∀ (cfg : VoiceConfig) (probOf : List Nat → ℚ)
        (stt : List Nat → Except String (String × ℚ))
        (s' : PipeState) (audio : List Nat),
      s'.interrupted = true →
      (streamAudioInputStep cfg probOf stt s' audio).1.interrupted = false) ∧
    (∀ s' : PipeState, s'.isPlaying = true →
      (cancelPlayback s').1.interrupted = true) := by
  refine ⟨?_, ?_, ?_, ?_, ?_, ?_⟩
  · unfold synthesizeResponse synthFinalize
    simp [hint]
  · intro cfg probOf stt s' audio h
    simp only [processAudioInput, handleInterruption]
    split_ifs <;> simp_all
  · intro s'
    simp only [synthesizeResponse, synthFinalize]
    split_ifs <;> simp_all
  · intro s'
    rfl
  · intro cfg probOf stt s' audio h
    unfold streamAudioInputStep
    simp [h]
  · intro s' h
    unfold cancelPlayback
    simp [h]

theorem c10_witness :
    ((synthesizeResponse {} (fun _ => some [1])
        ⟨PipelineState.SPEAKING, false, true, [], vadInit⟩ "Hi there.".data).2.2
      = []) ∧
    (synthesizeResponse {} (fun _ => some [1])
        ⟨PipelineState.SPEAKING, false, true, [], vadInit⟩ "Hi there.".data).1.state
      = PipelineState.SPEAKING :=
  ⟨(c10_interrupted_synthesis {} (fun _ => some [1])
      ⟨PipelineState.SPEAKING, false, true, [], vadInit⟩ "Hi there.".data rfl).1.1,
   (c10_interrupted_synthesis {} (fun _ => some [1])
      ⟨PipelineState.SPEAKING, false, true, [], vadInit⟩ "Hi there.".data rfl).1.2.1⟩

/-! ## C2 -/

/-- C2: triggering the interruption while playing leaves the pipeline in
`LISTENING` (not `IDLE`) with an empty utterance buffer and the
`interrupted` flag set, and the `finally` cleanup of the in-flight
`synthesize_response` generator does not move the state back to `IDLE`
(the flag is still set), so it stays `LISTENING`.  An utterance
transcribed afterwards therefore starts from an empty buffer. -/
theorem c2_interruption_clears_buffer (cfg : VoiceConfig) (probOf : List Nat → ℚ)
    (stt : List Nat → Except String (String × ℚ)) (s : PipeState) (audio : List Nat)
    (hp : s.isPlaying = true) (_hs : s.state = PipelineState.SPEAKING)
    (he : cfg.pipeline.enableInterruption = true)
    (hsp : cfg.vad.threshold ≤ probOf audio)
    (h7 : mkRat 7 10 ≤ probOf audio) :
    (processAudioInput cfg probOf stt s audio).1.state = PipelineState.LISTENING ∧
    (processAudioInput cfg probOf stt s audio).1.state ≠ PipelineState.IDLE ∧
    (processAudioInput cfg probOf stt s audio).1.buffer = [] ∧
    (processAudioInput cfg probOf stt s audio).1.interrupted = true ∧
    (synthFinalize (processAudioInput cfg probOf stt s audio).1).1.state =
      PipelineState.LISTENING := by
  have hiss : (vadProcess cfg.vad s.vad (probOf audio)).2.isSpeech = true := by
    simp only [vadProcess]
    exact decide_eq_true hsp
  simp only [processAudioInput]
  rw [if_pos ⟨hp, hiss, he, h7⟩]
  simp [handleInterruption, synthFinalize]

theorem c2_witness :
    (({} : VoiceConfig).vad.threshold ≤ mkRat 4 5) ∧
    (processAudioInput {} (fun _ => mkRat 4 5) (fun _ => Except.ok ("", 0))
      ⟨PipelineState.SPEAKING, true, false, [5, 6], vadInit⟩ [1]).1.buffer = [] ∧
    (processAudioInput {} (fun _ => mkRat 4 5) (fun _ => Except.ok ("", 0))
      ⟨PipelineState.SPEAKING, true, false, [5, 6], vadInit⟩ [1]).1.state =
      PipelineState.LISTENING :=
  ⟨by decide,
   (c2_interruption_clears_buffer {} (fun _ => mkRat 4 5) (fun _ => Except.ok ("", 0))
      ⟨PipelineState.SPEAKING, true, false, [5, 6], vadInit⟩ [1]
      rfl rfl rfl (by decide) (by decide)).2.2.1,
   (c2_interruption_clears_buffer {} (fun _ => mkRat 4 5) (fun _ => Except.ok ("", 0))
      ⟨PipelineState.SPEAKING, true, false, [5, 6], vadInit⟩ [1]
      rfl rfl rfl (by decide) (by decide)).1⟩

/-! ## C1 -/

/-- C1, refuted as stated: with the default configuration
(`interruption_threshold = 0.6`, VAD threshold `0.5`, interruption
enabled), a speech frame of probability `0.65 ≥ interruption_threshold`
arriving while audio is playing does *not* trigger the interruption path:
no `interruption` event is emitted and the `interrupted` flag stays
clear, because the code compares against a hardcoded `0.7`, not the
configured threshold. -/
theorem c1_counterexample :
    (({} : VoiceConfig).pipeline.enableInterruption = true) ∧
    (({} : VoiceConfig).pipeline.interruptionThreshold ≤ mkRat 13 20) ∧
    ((vadProcess ({} : VoiceConfig).vad vadInit (mkRat 13 20)).2.isSpeech = true) ∧
    PEvent.interruptionEv ∉
      (processAudioInput {} (fun _ => mkRat 13 20) (fun _ => Except.ok ("", 0))
        ⟨PipelineState.SPEAKING, true, false, [], vadInit⟩ [0]).2.1 ∧
    (processAudioInput {} (fun _ => mkRat 13 20) (fun _ => Except.ok ("", 0))
      ⟨PipelineState.SPEAKING, true, false, [], vadInit⟩ [0]).1.interrupted
      = false := by decide

/-- C1, amended: while playing with interruption enabled, the
interruption path is triggered exactly when the frame is classified as
speech (probability at or above the VAD threshold) *and* its probability
is at least the hardcoded `0.7` playback threshold of
`process_audio_input`; the configured pipeline `interruption_threshold`
is not consulted. -/
theorem c1_interruption_trigger (cfg : VoiceConfig) (probOf : List Nat → ℚ)
    (stt : List Nat → Except String (String × ℚ)) (s : PipeState) (audio : List Nat)
    (hp : s.isPlaying = true) (_hs : s.state = PipelineState.SPEAKING)
    (he : cfg.pipeline.enableInterruption = true) :
    PEvent.interruptionEv ∈ (processAudioInput cfg probOf stt s audio).2.1 ↔
      (cfg.vad.threshold ≤ probOf audio ∧ mkRat 7 10 ≤ probOf audio) := by
  have hiss : ((vadProcess cfg.vad s.vad (probOf audio)).2.isSpeech = true) ↔
      cfg.vad.threshold ≤ probOf audio := by
    simp [vadProcess]
  simp only [processAudioInput]
  by_cases hcond : cfg.vad.threshold ≤ probOf audio ∧ mkRat 7 10 ≤ probOf audio
  · rw [if_pos ⟨hp, hiss.mpr hcond.1, he, hcond.2⟩]
    simp [handleInterruption, hcond]
  · have hC : ¬ (s.isPlaying = true ∧
        (vadProcess cfg.vad s.vad (probOf audio)).2.isSpeech = true ∧
        cfg.pipeline.enableInterruption = true ∧ mkRat 7 10 ≤ probOf audio) := by
      intro hca
      exact hcond ⟨hiss.mp hca.2.1, hca.2.2.2⟩
    rw [if_neg hC]
    constructor
    · intro hmem
      exfalso
      revert hmem
      split_ifs <;> simp
    · intro hc
      exact absurd hc hcond

theorem c1_witness :
    PEvent.interruptionEv ∈
      (processAudioInput {} (fun _ => mkRat 4 5) (fun _ => Except.ok ("", 0))
        ⟨PipelineState.SPEAKING, true, false, [], vadInit⟩ [0]).2.1 :=
  (c1_interruption_trigger {} (fun _ => mkRat 4 5) (fun _ => Except.ok ("", 0))
    ⟨PipelineState.SPEAKING, true, false, [], vadInit⟩ [0] rfl rfl rfl).mpr
    ⟨by decide, by decide⟩

/-! ## C3 -/

/-- C3, refuted as stated: with one-frame VAD thresholds, a speech frame
followed by a silence frame reaches `SPEECH_END` with a non-empty buffer;
when the STT provider then fails, `process_audio_input` returns `none`
without raising, but the pipeline state stays `PROCESSING` — it does not
return to `IDLE` — and no `error` event is emitted. -/
theorem c3_counterexample :
    ((processAudioInput
        { vad := { minSpeechDurationMs := 30, minSilenceDurationMs := 30,
                   chunkSizeMs := 30 } }
        (fun a => if a = [1] then 1 else 0) (fun _ => Except.error "boom")
        (processAudioInput
          { vad := { minSpeechDurationMs := 30, minSilenceDurationMs := 30,
                     chunkSizeMs := 30 } }
          (fun a => if a = [1] then 1 else 0) (fun _ => Except.error "boom")
          pipeInit [1]).1 [2]).2.2 = none) ∧
    ((processAudioInput
        { vad := { minSpeechDurationMs := 30, minSilenceDurationMs := 30,
                   chunkSizeMs := 30 } }
        (fun a => if a = [1] then 1 else 0) (fun _ => Except.error "boom")
        (processAudioInput
          { vad := { minSpeechDurationMs := 30, minSilenceDurationMs := 30,
                     chunkSizeMs := 30 } }
          (fun a => if a = [1] then 1 else 0) (fun _ => Except.error "boom")
          pipeInit [1]).1 [2]).1.state = PipelineState.PROCESSING) ∧
    (PipelineState.PROCESSING ≠ PipelineState.IDLE) ∧
    (PEvent.errorEv ∉
      (processAudioInput
        { vad := { minSpeechDurationMs := 30, minSilenceDurationMs := 30,
                   chunkSizeMs := 30 } }
        (fun a => if a = [1] then 1 else 0) (fun _ => Except.error "boom")
        (processAudioInput
          { vad := { minSpeechDurationMs := 30, minSilenceDurationMs := 30,
                     chunkSizeMs := 30 } }
          (fun a => if a = [1] then 1 else 0) (fun _ => Except.error "boom")
          pipeInit [1]).1 [2]).2.1) := by decide

/-- C3, amended: when the recognizer provider fails on the `SPEECH_END`
frame of an utterance with a non-empty buffer, `process_audio_input`
returns `none` without raising (the STT service resolves the failure to
an empty transcript), the buffer is cleared, the pipeline state remains
`PROCESSING` rather than returning to `IDLE`, and no `error` event is
emitted. -/
theorem c3_stt_failure (cfg : VoiceConfig) (probOf : List Nat → ℚ)
    (stt : List Nat → Except String (String × ℚ)) (s : PipeState) (audio : List Nat)
    (msg : String)
    (hend : (vadProcess cfg.vad s.vad (probOf audio)).2.state = SpeechState.SPEECH_END)
    (hbuf : s.buffer ≠ [])
    (hfail : stt s.buffer = Except.error msg) :
    (processAudioInput cfg probOf stt s audio).2.2 = none ∧
    (processAudioInput cfg probOf stt s audio).1.state = PipelineState.PROCESSING ∧
    (processAudioInput cfg probOf stt s audio).1.buffer = [] ∧
    PEvent.errorEv ∉ (processAudioInput cfg probOf stt s audio).2.1 := by
  have hend' : (updateState cfg.vad s.vad
      (decide (cfg.vad.threshold ≤ probOf audio))).2 = SpeechState.SPEECH_END := hend
  have hbfalse : decide (cfg.vad.threshold ≤ probOf audio) = false := by
    have h := (updateState_end_frame cfg.vad s.vad _ hend').1
    simpa using h
  rw [hbfalse] at hend'
  simp only [processAudioInput, vadProcess, hbfalse, hend']
  simp [transcribeAudio, hfail, hbuf, hend']

theorem c3_witness :
    ((vadProcess
        ({ vad := { minSpeechDurationMs := 30, minSilenceDurationMs := 30,
                    chunkSizeMs := 30 } } : VoiceConfig).vad
        ⟨SpeechState.SPEECH, 3, 0⟩ 0).2.state = SpeechState.SPEECH_END) ∧
    ((processAudioInput
        { vad := { minSpeechDurationMs := 30, minSilenceDurationMs := 30,
                   chunkSizeMs := 30 } }
        (fun _ => 0) (fun _ => Except.error "x")
        ⟨PipelineState.LISTENING, false, false, [9], ⟨SpeechState.SPEECH, 3, 0⟩⟩
        [7]).1.state = PipelineState.PROCESSING) ∧
    ((processAudioInput
        { vad := { minSpeechDurationMs := 30, minSilenceDurationMs := 30,
                   chunkSizeMs := 30 } }
        (fun _ => 0) (fun _ => Except.error "x")
        ⟨PipelineState.LISTENING, false, false, [9], ⟨SpeechState.SPEECH, 3, 0⟩⟩
        [7]).2.2 = none) :=
  ⟨by decide,
   (c3_stt_failure
      { vad := { minSpeechDurationMs := 30, minSilenceDurationMs := 30,
                 chunkSizeMs := 30 } }
      (fun _ => 0) (fun _ => Except.error "x")
      ⟨PipelineState.LISTENING, false, false, [9], ⟨SpeechState.SPEECH, 3, 0⟩⟩
      [7] "x" (by decide) (by decide) rfl).2.1,
   (c3_stt_failure
      { vad := { minSpeechDurationMs := 30, minSilenceDurationMs := 30,
                 chunkSizeMs := 30 } }
      (fun _ => 0) (fun _ => Except.error "x")
      ⟨PipelineState.LISTENING, false, false, [9], ⟨SpeechState.SPEECH, 3, 0⟩⟩
      [7] "x" (by decide) (by decide) rfl).1⟩

theorem c5_witness :
    ((vadProcess { minSilenceDurationMs := 30, chunkSizeMs := 30 : VADConfig }
        ⟨SpeechState.SPEECH, 5, 0⟩ 0).2.state = SpeechState.SPEECH_END) ∧
    ((vadProcess { minSilenceDurationMs := 30, chunkSizeMs := 30 : VADConfig }
        (vadProcess { minSilenceDurationMs := 30, chunkSizeMs := 30 : VADConfig }
          ⟨SpeechState.SPEECH, 5, 0⟩ 0).1 1).2.state =
      (if ({ minSilenceDurationMs := 30, chunkSizeMs := 30 : VADConfig }.threshold ≤ (1:ℚ))
        then SpeechState.SPEECH else SpeechState.SILENCE)) :=
  ⟨by decide,
   (c5_after_end { minSilenceDurationMs := 30, chunkSizeMs := 30 : VADConfig }
      ⟨SpeechState.SPEECH, 5, 0⟩ 0 1 (by decide)).1⟩

/-! ## Helper lemmas: whitespace stripping and the sentence splitter -/

theorem mem_dropWs {c : Char} : ∀ {l : List Char}, c ∈ dropWs l → c ∈ l := by
  intro l
  induction l with
  | nil => intro h; simp [dropWs] at h
  | cons d ds ih =>
    intro h
    rw [dropWs] at h
    split at h
    · exact List.mem_cons_of_mem _ (ih h)
    · exact h

theorem dropWs_all {l : List Char} (h : (dropWs l).all isWsChar = true) :
    l.all isWsChar = true := by
  induction l with
  | nil => rfl
  | cons d ds ih =>
    by_cases hd : isWsChar d
    · have he : dropWs (d :: ds) = dropWs ds := by simp [dropWs, hd]
      rw [he] at h
      simp [hd, ih h]
    · have he : dropWs (d :: ds) = d :: ds := by simp [dropWs, hd]
      rw [he] at h
      exact h

theorem all_ws_of_pyStrip_nil {l : List Char} (h : pyStrip l = []) :
    l.all isWsChar = true := by
  unfold pyStrip at h
  rw [List.reverse_eq_nil_iff] at h
  have h2 : ((dropWs l).reverse).all isWsChar = true := dropWs_all (by rw [h]; rfl)
  rw [List.all_reverse] at h2
  exact dropWs_all h2

theorem pyStrip_ne_nil_of_mem {c : Char} {l : List Char}
    (hc : c ∈ l) (hw : isWsChar c = false) : pyStrip l ≠ [] := by
  intro h
  have hall := all_ws_of_pyStrip_nil h
  rw [List.all_eq_true] at hall
  have := hall c hc
  rw [hw] at this
  exact Bool.false_ne_true this

theorem dropWs_head_not_ws : ∀ {l : List Char} {c : Char} {cs : List Char},
    dropWs l = c :: cs → isWsChar c = false := by
  intro l
  induction l with
  | nil => intro c cs h; simp [dropWs] at h
  | cons d ds ih =>
    intro c cs h
    by_cases hd : isWsChar d
    · have he : dropWs (d :: ds) = dropWs ds := by simp [dropWs, hd]
      rw [he] at h
      exact ih h
    · have he : dropWs (d :: ds) = d :: ds := by simp [dropWs, hd]
      rw [he] at h
      cases h
      simpa using hd

theorem pyStrip_has_nonws {l : List Char} (h : pyStrip l ≠ []) :
    ∃ c ∈ pyStrip l, isWsChar c = false := by
  unfold pyStrip at h ⊢
  cases hx : dropWs ((dropWs l).reverse) with
  | nil => rw [hx] at h; simp at h
  | cons c cs =>
    refine ⟨c, ?_, dropWs_head_not_ws hx⟩
    simp

theorem pyStrip_pyStrip_ne_nil {l : List Char} (h : pyStrip l ≠ []) :
    pyStrip (pyStrip l) ≠ [] := by
  obtain ⟨c, hc, hw⟩ := pyStrip_has_nonws h
  exact pyStrip_ne_nil_of_mem hc hw

theorem mem_pyStrip {c : Char} {l : List Char} (h : c ∈ pyStrip l) : c ∈ l := by
  unfold pyStrip at h
  rw [List.mem_reverse] at h
  have h1 := mem_dropWs h
  rw [List.mem_reverse] at h1
  exact mem_dropWs h1

theorem hasBoundary_cons_of {a : Char} {l : List Char} (h : hasBoundary l = true) :
    hasBoundary (a :: l) = true := by
  cases l with
  | nil => simp [hasBoundary] at h
  | cons b bs => simp [hasBoundary, h]

theorem hasBoundary_pair {p c : Char} (hp : isPunctChar p = true)
    (hc : isWsChar c = true) :
    ∀ xs ys : List Char, hasBoundary (xs ++ p :: c :: ys) = true := by
  intro xs
  induction xs with
  | nil => intro ys; simp [hasBoundary, hp, hc]
  | cons x xs ih =>
    intro ys
    simpa using hasBoundary_cons_of (ih ys)

/-- With no boundary anywhere in the remaining input (including the
lookbehind over the accumulated segment), the splitter returns the whole
input as a single segment. -/
theorem splitAux_no_boundary : ∀ (rest cur : List Char),
    hasBoundary (cur.reverse ++ rest) = false →
    splitAux (some cur) rest = [cur.reverse ++ rest] := by
  intro rest
  induction rest with
  | nil => intro cur h; simp [splitAux]
  | cons c cs ih =>
    intro cur h
    cases cur with
    | nil =>
      have := ih [c] (by simpa using h)
      simpa [splitAux] using this
    | cons p cur' =>
      by_cases hb : (isPunctChar p && isWsChar c) = true
      · exfalso
        rw [Bool.and_eq_true] at hb
        have hpair := hasBoundary_pair hb.1 hb.2 cur'.reverse cs
        have heq : (p :: cur').reverse ++ c :: cs = cur'.reverse ++ p :: c :: cs := by
          simp
        rw [heq, hpair] at h
        simp at h
      · have harg : hasBoundary ((c :: p :: cur').reverse ++ cs) = false := by
          have heq : (c :: p :: cur').reverse ++ cs = (p :: cur').reverse ++ c :: cs := by
            simp
          rw [heq]
          exact h
        have := ih (c :: p :: cur') harg
        rw [splitAux, if_neg hb, this]
        congr 1
        simp

theorem mem_splitAux : ∀ (rest : List Char) (st : Option (List Char)) (c : Char),
    isWsChar c = false → (c ∈ rest ∨ c ∈ st.getD []) →
    ∃ s ∈ splitAux st rest, c ∈ s := by
  intro rest
  induction rest with
  | nil =>
    intro st c hw hc
    rcases hc with h | h
    · simp at h
    · exact ⟨(st.getD []).reverse, by simp [splitAux], by simpa using h⟩
  | cons d ds ih =>
    intro st c hw hc
    cases st with
    | none =>
      rw [splitAux]
      by_cases hd : isWsChar d
      · rw [if_pos hd]
        apply ih none c hw
        left
        rcases hc with h | h
        · rcases List.mem_cons.mp h with h1 | h1
          · subst h1; rw [hd] at hw; cases hw
          · exact h1
        · simp at h
      · rw [if_neg hd]
        apply ih (some [d]) c hw
        rcases hc with h | h
        · rcases List.mem_cons.mp h with h1 | h1
          · right; simp [h1]
          · left; exact h1
        · simp at h
    | some cur =>
      cases cur with
      | nil =>
        rw [splitAux]
        apply ih (some [d]) c hw
        rcases hc with h | h
        · rcases List.mem_cons.mp h with h1 | h1
          · right; simp [h1]
          · left; exact h1
        · simp at h
      | cons p cur' =>
        by_cases hb : (isPunctChar p && isWsChar d) = true
        · rw [splitAux, if_pos hb]
          rcases hc with h | h
          · rcases List.mem_cons.mp h with h1 | h1
            · subst h1
              rw [Bool.and_eq_true] at hb
              rw [hb.2] at hw
              cases hw
            · obtain ⟨s, hs, hcs⟩ := ih none c hw (Or.inl h1)
              exact ⟨s, List.mem_cons_of_mem _ hs, hcs⟩
          · refine ⟨(p :: cur').reverse, List.mem_cons_self _ _, ?_⟩
            rw [List.mem_reverse]
            exact h
        · rw [splitAux, if_neg hb]
          apply ih (some (d :: p :: cur')) c hw
          rcases hc with h | h
          · rcases List.mem_cons.mp h with h1 | h1
            · right; simp [h1]
            · left; exact h1
          · right
            simp only [Option.getD] at h ⊢
            exact List.mem_cons_of_mem _ h

theorem result_mem_strip {text s : List Char}
    (hs : s ∈ ((splitAux (some []) text).map pyStrip).filter (fun x => x ≠ [])) :
    pyStrip s ≠ [] := by
  rw [List.mem_filter] at hs
  obtain ⟨hmem, hne⟩ := hs
  rw [List.mem_map] at hmem
  obtain ⟨x, _hx, rfl⟩ := hmem
  exact pyStrip_pyStrip_ne_nil (by simpa using hne)

theorem result_nil_strip {text : List Char}
    (h : ((splitAux (some []) text).map pyStrip).filter (fun x => x ≠ []) = []) :
    pyStrip text = [] := by
  by_contra hne
  obtain ⟨c, hc, hw⟩ := pyStrip_has_nonws hne
  have hct : c ∈ text := mem_pyStrip hc
  obtain ⟨s, hs, hcs⟩ := mem_splitAux text (some []) c hw (Or.inl hct)
  have hsne : pyStrip s ≠ [] := pyStrip_ne_nil_of_mem hcs hw
  have hmem : pyStrip s ∈
      ((splitAux (some []) text).map pyStrip).filter (fun x => x ≠ []) := by
    rw [List.mem_filter]
    exact ⟨List.mem_map_of_mem _ hs, by simpa⟩
  rw [h] at hmem
  simp at hmem

/-- The specification's segmentation rule coincides with the
implementation's stripped-and-filtered split (for any input, with or
without a boundary). -/
theorem specSegmentation_eq_result (text : List Char) :
    specSegmentation text =
      ((splitAux (some []) text).map pyStrip).filter (fun x => x ≠ []) := by
  unfold specSegmentation
  by_cases hb : hasBoundary text = true
  · simp [hb]
  · have h7 : splitAux (some []) text = [text] :=
      splitAux_no_boundary text [] (by simpa using hb)
    simp [hb, h7]

theorem streamSynthAux_map (cfg : TTSConfig) (p : List Char → Option (List Nat))
    (total : Nat) : ∀ (S : List (List Char)) (i : Nat),
    (∀ s ∈ S, pyStrip s ≠ []) →
    (streamSynthAux cfg p total i S).map AudioChunk.textSegment = S := by
  intro S
  induction S with
  | nil => intro i _; rfl
  | cons s S' ih =>
    intro i h
    have hs : ¬ (pyStrip s = []) := h s (List.mem_cons_self _ _)
    rw [streamSynthAux, if_neg hs]
    simp only [List.map_cons]
    rw [ih (i + 1) (fun x hx => h x (List.mem_cons_of_mem _ hx))]

theorem streamSynthAux_length (cfg : TTSConfig) (p : List Char → Option (List Nat))
    (total : Nat) (S : List (List Char)) (i : Nat)
    (h : ∀ s ∈ S, pyStrip s ≠ []) :
    (streamSynthAux cfg p total i S).length = S.length := by
  have hm := streamSynthAux_map cfg p total S i h
  calc (streamSynthAux cfg p total i S).length
      = ((streamSynthAux cfg p total i S).map AudioChunk.textSegment).length :=
        (List.length_map _ _).symm
    _ = S.length := by rw [hm]

theorem streamSynthAux_get? (cfg : TTSConfig) (p : List Char → Option (List Nat))
    (total : Nat) : ∀ (S : List (List Char)) (i k : Nat)
    (_hall : ∀ s ∈ S, pyStrip s ≠ []) (hk : k < S.length),
    (streamSynthAux cfg p total i S).get? k =
      some { synthesizeOpenai cfg p (S.get ⟨k, hk⟩) with
              isFinal := decide (i + k = total - 1),
              textSegment := S.get ⟨k, hk⟩ } := by
  intro S
  induction S with
  | nil => intro i k _ hk; simp at hk
  | cons s S' ih =>
    intro i k hall hk
    have hs : ¬ (pyStrip s = []) := hall s (List.mem_cons_self _ _)
    cases k with
    | zero =>
      rw [streamSynthAux, if_neg hs]
      simp
    | succ k' =>
      have hk' : k' < S'.length := by simpa using hk
      have hrec := ih (i + 1) k' (fun x hx => hall x (List.mem_cons_of_mem _ hx)) hk'
      have harith : i + 1 + k' = i + (k' + 1) := by omega
      rw [harith] at hrec
      rw [streamSynthAux, if_neg hs]
      simpa using hrec

/-! ## C6 -/

/-- The two claim-level properties of `stream_synthesis`, for every input:
the yielded chunks' text segments are exactly the specification's sentence
segmentation (one chunk per sentence, in order), and a yielded chunk has
`is_final` exactly when it is the last one. -/
theorem streamSynthesis_chunks (cfg : TTSConfig)
    (p : List Char → Option (List Nat)) (text : List Char) :
    ((streamSynthesis cfg p text).map AudioChunk.textSegment =
      specSegmentation text) ∧
    (∀ k c, (streamSynthesis cfg p text).get? k = some c →
      (c.isFinal = true ↔ k + 1 = (streamSynthesis cfg p text).length)) := by
  rw [specSegmentation_eq_result]
  by_cases hres : ((splitAux (some []) text).map pyStrip).filter (fun x => x ≠ []) = []
  · have hstrip : pyStrip text = [] := result_nil_strip hres
    have hsents : splitSentences text = [text] := by
      unfold splitSentences
      rw [if_pos hres]
    have hempty : streamSynthesis cfg p text = [] := by
      simp only [streamSynthesis]
      rw [hsents, streamSynthAux, if_pos hstrip]
      rfl
    rw [hempty, hres]
    exact ⟨rfl, by intro k c h; simp at h⟩
  · have hS : splitSentences text =
        ((splitAux (some []) text).map pyStrip).filter (fun x => x ≠ []) := by
      unfold splitSentences
      rw [if_neg hres]
    have hall : ∀ s ∈ ((splitAux (some []) text).map pyStrip).filter
        (fun x => x ≠ []), pyStrip s ≠ [] := fun _ hs => result_mem_strip hs
    constructor
    · simp only [streamSynthesis]
      rw [hS]
      exact streamSynthAux_map cfg p _ _ 0 hall
    · intro k c hkc
      simp only [streamSynthesis] at hkc ⊢
      rw [hS] at hkc ⊢
      have hlen := streamSynthAux_length cfg p
        (((splitAux (some []) text).map pyStrip).filter (fun x => x ≠ [])).length
        (((splitAux (some []) text).map pyStrip).filter (fun x => x ≠ [])) 0 hall
      have hk : k < (((splitAux (some []) text).map pyStrip).filter
          (fun x => x ≠ [])).length := by
        obtain ⟨hklt, -⟩ := List.get?_eq_some.mp hkc
        rw [hlen] at hklt
        exact hklt
      have hget := streamSynthAux_get? cfg p
        (((splitAux (some []) text).map pyStrip).filter (fun x => x ≠ [])).length
        (((splitAux (some []) text).map pyStrip).filter (fun x => x ≠ [])) 0 k hall hk
      rw [hget] at hkc
      have hc := Option.some.inj hkc
      subst hc
      rw [hlen]
      have hpos : 0 < (((splitAux (some []) text).map pyStrip).filter
          (fun x => x ≠ [])).length := List.length_pos.mpr hres
      simp only [Nat.zero_add]
      constructor
      · intro h
        have := of_decide_eq_true h
        omega
      · intro h
        apply decide_eq_true
        omega

/-- C6: for every input text, `stream_synthesis` yields one `AudioChunk`
per sentence of the text (the specification's segmentation: split on
`.`/`!`/`?` followed by whitespace, blank segments discarded, the whole
input as one segment when no boundary exists), in sentence order, and the
last yielded chunk and only the last has `is_final = true`; in
particular, for "Hello there. How are you?" it yields exactly two chunks
where only the second has `is_final = true`. -/
theorem c6_sentence_streaming (cfg : TTSConfig)
    (p : List Char → Option (List Nat)) (text : List Char) :
    ((streamSynthesis cfg p text).map AudioChunk.textSegment =
      specSegmentation text) ∧
    (∀ k c, (streamSynthesis cfg p text).get? k = some c →
      (c.isFinal = true ↔ k + 1 = (streamSynthesis cfg p text).length)) ∧
    ((streamSynthesis cfg p "Hello there. How are you?".data).length = 2 ∧
     (streamSynthesis cfg p "Hello there. How are you?".data).map
       AudioChunk.isFinal = [false, true]) := by
  refine ⟨(streamSynthesis_chunks cfg p text).1,
    (streamSynthesis_chunks cfg p text).2, ?_, ?_⟩
  · have h1 := (streamSynthesis_chunks cfg p "Hello there. How are you?".data).1
    have h2 : (specSegmentation "Hello there. How are you?".data).length = 2 := by
      decide
    have := congrArg List.length h1
    rw [List.length_map, h2] at this
    exact this
  · have hlen : (streamSynthesis cfg p "Hello there. How are you?".data).length = 2 := by
      have h1 := (streamSynthesis_chunks cfg p "Hello there. How are you?".data).1
      have h2 : (specSegmentation "Hello there. How are you?".data).length = 2 := by
        decide
      have := congrArg List.length h1
      rw [List.length_map, h2] at this
      exact this
    obtain ⟨a, b, hab⟩ := List.length_eq_two.mp hlen
    have hget0 : (streamSynthesis cfg p "Hello there. How are you?".data).get? 0 =
        some a := by rw [hab]; rfl
    have hget1 : (streamSynthesis cfg p "Hello there. How are you?".data).get? 1 =
        some b := by rw [hab]; rfl
    have hfa := (streamSynthesis_chunks cfg p "Hello there. How are you?".data).2
      0 a hget0
    have hfb := (streamSynthesis_chunks cfg p "Hello there. How are you?".data).2
      1 b hget1
    rw [hlen] at hfa hfb
    have ha : a.isFinal = false := by
      cases hx : a.isFinal
      · rfl
      · exact absurd (hfa.mp hx) (by omega)
    have hb : b.isFinal = true := hfb.mpr rfl
    rw [hab]
    simp [ha, hb]

theorem c6_witness :
    (streamSynthesis {} (fun _ => some [3]) "Hello there. How are you?".data).length
      = 2 ∧
    (streamSynthesis {} (fun _ => some [3]) "Hello there. How are you?".data).map
      AudioChunk.isFinal = [false, true] :=
  ⟨(c6_sentence_streaming {} (fun _ => some [3]) []).2.2.1,
   (c6_sentence_streaming {} (fun _ => some [3]) []).2.2.2⟩

/-! ## C7 -/

/-- C7: if the synthesis provider call fails for one segment of a
multi-sentence `stream_synthesis` request, no exception propagates (the
`except` branch of `_synthesize_openai` turns it into an empty-data
chunk): the stream still yields one chunk per sentence, the failed
segment's chunk carries empty audio data, and every segment whose
provider call succeeds is yielded with its synthesized data. -/
theorem c7_segment_failure (cfg : TTSConfig) (p : List Char → Option (List Nat))
    (text : List Char) (i : Nat)
    (hmulti : 2 ≤ (splitSentences text).length)
    (hi : i < (splitSentences text).length)
    (hfail : p ((splitSentences text).get ⟨i, hi⟩) = none) :
    ((streamSynthesis cfg p text).length = (splitSentences text).length) ∧
    (∃ c, (streamSynthesis cfg p text).get? i = some c ∧ c.data = []) ∧
    (∀ j (hj : j < (splitSentences text).length) (d : List Nat),
      p ((splitSentences text).get ⟨j, hj⟩) = some d →
      ∃ c, (streamSynthesis cfg p text).get? j = some c ∧ c.data = d) := by
  have hres : ¬ (((splitAux (some []) text).map pyStrip).filter
      (fun x => x ≠ []) = []) := by
    intro h
    rw [splitSentences] at hmulti
    rw [if_pos h] at hmulti
    simp at hmulti
  have hS : splitSentences text =
      ((splitAux (some []) text).map pyStrip).filter (fun x => x ≠ []) := by
    unfold splitSentences
    rw [if_neg hres]
  have hall : ∀ s ∈ splitSentences text, pyStrip s ≠ [] := by
    rw [hS]
    exact fun _ hs => result_mem_strip hs
  refine ⟨streamSynthAux_length cfg p _ _ 0 hall, ?_, ?_⟩
  · have hget := streamSynthAux_get? cfg p (splitSentences text).length
      (splitSentences text) 0 i hall hi
    refine ⟨_, hget, ?_⟩
    have hfail' : p ((splitSentences text)[i]) = none := hfail
    simp [synthesizeOpenai, hfail']
  · intro j hj d hd
    have hget := streamSynthAux_get? cfg p (splitSentences text).length
      (splitSentences text) 0 j hall hj
    refine ⟨_, hget, ?_⟩
    have hd' : p ((splitSentences text)[j]) = some d := hd
    simp [synthesizeOpenai, hd']

theorem c7_witness :
    ((streamSynthesis {} (fun s => if s = "Cd.".data then none else some [1, 2])
        "Ab. Cd.".data).length = 2) ∧
    (∃ c, (streamSynthesis {}
        (fun s => if s = "Cd.".data then none else some [1, 2])
        "Ab. Cd.".data).get? 1 = some c ∧ c.data = []) :=
  ⟨(c7_segment_failure {} (fun s => if s = "Cd.".data then none else some [1, 2])
      "Ab. Cd.".data 1 (by decide) (by decide) (by decide)).1,
   (c7_segment_failure {} (fun s => if s = "Cd.".data then none else some [1, 2])
      "Ab. Cd.".data 1 (by decide) (by decide) (by decide)).2.1⟩

end Jarvis
